import Mathlib

/-!
Shallow embedding of the remote log-access client in `cmd/logs.go` of
ledgerwatch/diagnostics: the three wire-format decoders (list, snippet,
byte-chunk), the polling `Read` loop and the `Seek` function of `LogReader`.

Go `[]byte` and the byte content of Go strings are modelled as `List Char`
(all inputs of interest are ASCII, and Go indexes strings by byte exactly as
we walk the list).  Go `uint64` is modelled as `Nat` with an explicit
`% 2 ^ 64` at the points where Go arithmetic can wrap; Go `int64` values are
`Int` with explicit two's-complement reinterpretation (`toInt64`,
`toUint64`).  The external dispatcher that mutates a shared request record
is modelled as a sequence of observed snapshots `reqs : Nat → NodeRequest`,
one per poll iteration, and the cancellation context as `done : Nat → Bool`;
the unbounded Go `for` loop is modelled with explicit fuel, `none` standing
for "still looping after `fuel` iterations".
-/

/-- 2^64, the modulus of Go `uint64` arithmetic. -/
def W : Nat := 2 ^ 64

/-- Reinterpret an `Int` as Go `uint64(x)` does (value in `[0, 2^64)`). -/
def toUint64 (i : Int) : Nat := (i % (W : Int)).toNat

/-- Reinterpret a `Nat` below `2^64` as Go `int64(x)` does
(two's complement: values at or above `2^63` become negative). -/
def toInt64 (n : Nat) : Int :=
  if n % W < 2 ^ 63 then ((n % W : Nat) : Int) else ((n % W : Nat) : Int) - (W : Int)

/-- Modelled from the spec: the fixed success-marker constant `successLine`
is declared in the repository outside `src/` (only its uses are in
`src/cmd/logs.go`).  The spec's scenarios (`"SUCCESS\nerigon.log | 2048\n"`)
and the repository's tests fix it to the literal below. -/
def successLine : String := "SUCCESS"

/-- Modelled from the spec: the shared request record (`RemoteRequest` in the
spec, `NodeRequest` in the code) is declared outside `src/`; its fields are
exactly the ones `src/cmd/logs.go` reads: `url`, `served`, `retries`
(attempt count), `err` and `response`.  The per-request mutex is not a field
here because a value of this type stands for one lock-protected snapshot. -/
structure NodeRequest where
  url : String
  served : Bool
  retries : Nat
  err : String
  response : List Char
deriving DecidableEq

/-- Go `strings.Split(s, "\n")` on the byte list: split at every newline,
keeping empty segments (never returns `[]`). -/
def splitLines : List Char → List (List Char)
  | [] => [[]]
  | c :: cs =>
    if c = '\n' then [] :: splitLines cs
    else
      match splitLines cs with
      | [] => [[c]]
      | l :: ls => (c :: l) :: ls

/-- Go `strings.Split(l, " | ")`: split at every non-overlapping, leftmost
occurrence of the three-byte separator. -/
def splitBarSep : List Char → List (List Char)
  | ' ' :: '|' :: ' ' :: rest => [] :: splitBarSep rest
  | c :: cs =>
    match splitBarSep cs with
    | [] => [[c]]
    | l :: ls => (c :: l) :: ls
  | [] => [[]]

/-- Go `bytes.IndexByte(b, '\n')` followed by the slices `b[:i]` and
`b[i+1:]`: `none` when there is no newline, otherwise the part before the
first newline and the part after it. -/
def splitFirstLine : List Char → Option (List Char × List Char)
  | [] => none
  | c :: cs =>
    if c = '\n' then some ([], cs)
    else
      match splitFirstLine cs with
      | none => none
      | some (l, r) => some (c :: l, r)

/-- Longest prefix of decimal digits and the rest (the maximal-munch reading
of one `[0-9]+` group of the anchored regexp in `cmd/logs.go`). -/
def takeDigits : List Char → List Char × List Char
  | [] => ([], [])
  | c :: cs =>
    if c.isDigit then
      match takeDigits cs with
      | (d, r) => (c :: d, r)
    else ([], c :: cs)

/-- Numeric value of a decimal digit byte. -/
def digitVal (c : Char) : Nat := c.toNat - 48

/-- Value of a list of decimal digit bytes, most significant first. -/
def digitsToNat (ds : List Char) : Nat := ds.foldl (fun a c => a * 10 + digitVal c) 0

/-- Go `strconv.ParseUint(s, 10, 64)` reduced to how `cmd/logs.go` consumes
it: `some` of the value for a non-empty all-digit string whose value fits in
`uint64`, `none` (an error) otherwise — Go reports `ErrSyntax` for a
non-digit or empty input and `ErrRange` for overflow, and the caller only
tests `err != nil`. -/
def parseUint64 (ds : List Char) : Option Nat :=
  if ds ≠ [] ∧ ds.all (fun c => c.isDigit) = true ∧ digitsToNat ds < W then
    some (digitsToNat ds)
  else none

/-- The `err.Error()` text interpolated by `cmd/logs.go` when `ParseUint`
fails on a group the regexp already constrained to `[0-9]+`: the only
possible failure there is the range error. -/
def parseUintErr (ds : List Char) : String :=
  "strconv.ParseUint: parsing \"" ++ String.mk ds ++ "\": value out of range"

/-- `if p.isPrefixOf l` then the rest of `l`, else `none`; used to consume
the literal `SUCCESS: ` head of the chunk first line. -/
def dropPre (p l : List Char) : Option (List Char) :=
  if p.isPrefixOf l then some (l.drop p.length) else none

/-- The anchored regexp `^SUCCESS: ([0-9]+)-([0-9]+)/([0-9]+)$` of
`cmd/logs.go` (`logReadFirstLine`), as a direct parser: the line must be the
literal `SUCCESS: `, then digits, `-`, digits, `/`, digits, end of line.
Because the two delimiters are not digits, greedy digit-taking coincides
with the regexp's backtracking semantics. -/
def logReadFirstLine (l : List Char) : Option (List Char × List Char × List Char) :=
  match dropPre (("SUCCESS: ").toList) l with
  | none => none
  | some r1 =>
    match takeDigits r1 with
    | (d1, r2) =>
      match r2 with
      | [] => none
      | c1 :: r3 =>
        if c1 = '-' then
          match takeDigits r3 with
          | (d2, r4) =>
            match r4 with
            | [] => none
            | c2 :: r5 =>
              if c2 = '/' then
                match takeDigits r5 with
                | (d3, r6) =>
                  if d1.isEmpty || d2.isEmpty || d3.isEmpty || !r6.isEmpty then none
                  else some (d1, d2, d3)
              else none
        else none

/-- The five results of Go `parseLogPart(nodeRequest, offset)`:
`(clear, to, total, part, errStr)`; `to` is spelled `toVal` because `to` is
a Lean keyword. -/
structure LogPartParse where
  clear : Bool
  toVal : Nat
  total : Nat
  part : List Char
  errStr : String
deriving DecidableEq

/-- `parseLogPart` of `cmd/logs.go`: decode one byte-chunk response from a
lock-protected snapshot of the shared request.  Not served: `(false, …)`
with no error (keep polling).  Served with an error, or with a response
whose first line is missing, fails the pattern, has an out-of-range field,
or reports a `from` different from the requested offset: that error, with
`clear` true exactly when the attempt count has reached 16.  Fully valid:
`(true, to, total, payload-after-first-newline, "")`. -/
def parseLogPart (nodeRequest : NodeRequest) (offset : Nat) : LogPartParse :=
  if !nodeRequest.served then ⟨false, 0, 0, [], ""⟩
  else
    let clear := decide (16 ≤ nodeRequest.retries)
    if nodeRequest.err ≠ "" then ⟨clear, 0, 0, [], nodeRequest.err⟩
    else
      match splitFirstLine nodeRequest.response with
      | none => ⟨clear, 0, 0, [], "could not find first line in log part response"⟩
      | some (firstLine, rest) =>
        match logReadFirstLine firstLine with
        | none =>
          ⟨clear, 0, 0, [],
            "first line needs to have format SUCCESS: from-to/total, was [" ++
              String.mk firstLine ++ "n"⟩
        | some (d1, d2, d3) =>
          match parseUint64 d1 with
          | none => ⟨clear, 0, 0, [], "parsing from: " ++ parseUintErr d1⟩
          | some fr =>
            if fr ≠ offset then
              ⟨clear, 0, 0, [],
                "Unexpected from " ++ toString fr ++ ", wanted " ++ toString offset⟩
            else
              match parseUint64 d2 with
              | none => ⟨clear, 0, 0, [], "parsing to: " ++ parseUintErr d2⟩
              | some t =>
                match parseUint64 d3 with
                | none => ⟨clear, 0, 0, [], "parsing total: " ++ parseUintErr d3⟩
                | some tot => ⟨true, t, tot, rest, ""⟩

/-- One entry of the decoded log list (`LogListItem` in `cmd/logs.go`).
`Size` is Go `int64(size)` of the parsed `uint64`.  The presentation-only
`PrintedSize` field (binary-unit float formatting via `ByteCount`/`MBToGB`)
is not modelled: no claim depends on it and its `%.1f` rendering is
floating-point. -/
structure LogListItem where
  Filename : String
  Size : Int
deriving DecidableEq

/-- The decoded log list (`LogList` in `cmd/logs.go`). -/
structure LogList where
  Success : Bool
  Error : String
  SessionName : String
  List : List LogListItem
deriving DecidableEq

/-- Go `fmt.Sprintf("%v", lines)` for a `[]string`: the elements joined by
single spaces inside brackets. -/
def joinSpace : List (List Char) → List Char
  | [] => []
  | [l] => l
  | l :: ls => l ++ ' ' :: joinSpace ls

/-- Render a `[]string` the way Go's `%v` verb does. -/
def goShowLines (ls : List (List Char)) : String :=
  String.mk ('[' :: (joinSpace ls ++ [']']))

/-- The `for _, l := range lines[1:]` loop body of
`LogList.processResponse`: skip empty lines; split each line on `" | "`;
a split into other than two fields, or an unparsable size, stops the loop
with that error message, keeping the entries accumulated so far; otherwise
append the entry and continue. -/
def processLines (acc : List LogListItem) : List (List Char) → List LogListItem × Option String
  | [] => (acc, none)
  | l :: rest =>
    if l.isEmpty then processLines acc rest
    else
      match splitBarSep l with
      | [a, b] =>
        match parseUint64 b with
        | none => (acc, some ("incorrect size: " ++ String.mk b))
        | some size =>
          processLines (acc ++ [⟨String.mk a, toInt64 size⟩]) rest
      | _ =>
        (acc, some ("incorrect response line (need to have 2 terms divided by |): " ++
          String.mk l))

/-- `(*LogList).processResponse` of `cmd/logs.go`.  On `success = false` the
raw text becomes the error verbatim.  Otherwise the body must split into at
least two lines, the first must start with the success marker, and every
non-blank later line must be `<filename> | <uint64>`; the first bad line
aborts with its error (leaving `Success` as it was and the entries collected
so far in `List`), and a clean run sets `Success` and appends all entries. -/
def LogList.processResponse (ll : LogList) (result : String) (success : Bool) : LogList :=
  if !success then { ll with Error := result }
  else
    match splitLines result.toList with
    | l0 :: l1 :: rest =>
      if !(successLine.toList.isPrefixOf l0) then
        { ll with Error := "incorrect response (first line needs to be SUCCESS): " ++
            goShowLines (l0 :: l1 :: rest) }
      else
        match processLines [] (l1 :: rest) with
        | (items, none) => { ll with List := ll.List ++ items, Success := true }
        | (items, some e) => { ll with List := ll.List ++ items, Error := e }
    | lines =>
      { ll with Error := "incorrect response (length of lines should be at least 2): " ++
          goShowLines lines }

/-- The decoded snippet (`LogPart` in `cmd/logs.go`). -/
structure LogPart where
  Success : Bool
  Error : String
  Lines : List String
deriving DecidableEq

/-- `(*LogPart).processResponse` of `cmd/logs.go`.  On `success = false` the
raw text becomes the error verbatim.  Otherwise `Success` is set, the body
is split on newlines, the first line is dropped when it starts with the
success marker (and kept when it does not — no error either way), and the
remaining lines are the snippet. -/
def LogPart.processResponse (lp : LogPart) (result : String) (success : Bool) : LogPart :=
  if !success then { lp with Success := false, Error := result }
  else
    let lines := splitLines result.toList
    let lines2 :=
      match lines with
      | l0 :: rest => if successLine.toList.isPrefixOf l0 then rest else lines
      | [] => lines
    { lp with Success := true, Lines := lines2.map String.mk }

/-- The stream state of `LogReader` in `cmd/logs.go`.  The request channel
and the context are not fields here: the dispatcher behind the channel is
abstracted as the per-iteration snapshot sequence passed to `Read`, and the
context as the per-iteration cancellation flag. -/
structure LogReader where
  filename : String
  total : Nat
  offset : Nat
deriving DecidableEq

/-- What a `Read` call returns besides the copied count: Go
`(0, fmt.Errorf("interrupted"))`, `(0, fmt.Errorf(errStr))`, or
`(copied, io.EOF)` / `(copied, nil)` (`ok true` / `ok false`). -/
inductive ReadOutcome where
  | interrupted : ReadOutcome
  | failed : String → ReadOutcome
  | ok : Bool → ReadOutcome
deriving DecidableEq

/-- The `for nodeRequest != nil` polling loop of `(*LogReader).Read`: at
iteration `i`, first the `select` on `ctx.Done()` (return `some none`,
interrupted), then `parseLogPart` on the current snapshot `reqs i`; a
`clear` result ends the loop carrying that call's `(total, part, errStr)`
(`some (some …)`), anything else sleeps 100ms and re-polls.  `none` means
the loop is still running when the fuel runs out — the Go loop has no fuel
and simply never returns in that case. -/
def readLoop (reqs : Nat → NodeRequest) (done : Nat → Bool) (off : Nat) :
    Nat → Nat → Option (Option (Nat × List Char × String))
  | 0, _ => none
  | fuel + 1, i =>
    if done i then some none
    else
      let r := parseLogPart (reqs i) off
      if r.clear then some (some (r.total, r.part, r.errStr))
      else readLoop reqs done off fuel (i + 1)

/-- `(*LogReader).Read` of `cmd/logs.go`.  It submits a request for
`lr.filename` at `lr.offset` (the hand-off to the dispatcher is abstracted
by `reqs`) and runs the polling loop.  Interrupted: `(lr, 0, interrupted)`
with no state change.  A terminal error: `(lr, 0, failed msg)` with no state
change.  Success: `total` is stored, `min (buffer length) (payload length)`
bytes are copied, the offset advances by the copied count (`uint64`
arithmetic), and `ok true` (EOF) is returned exactly when the new offset
equals the reported total. -/
def LogReader.Read (lr : LogReader) (bufLen : Nat) (reqs : Nat → NodeRequest)
    (done : Nat → Bool) (fuel : Nat) : Option (LogReader × Nat × ReadOutcome) :=
  match readLoop reqs done lr.offset fuel 0 with
  | none => none
  | some none => some (lr, 0, ReadOutcome.interrupted)
  | some (some (total, part, errStr)) =>
    if errStr ≠ "" then some (lr, 0, ReadOutcome.failed errStr)
    else
      let copied := min bufLen part.length
      let newOff := (lr.offset + copied) % W
      if newOff = total then
        some ({ lr with total := total, offset := newOff }, copied, ReadOutcome.ok true)
      else
        some ({ lr with total := total, offset := newOff }, copied, ReadOutcome.ok false)

/-- `(*LogReader).Seek` of `cmd/logs.go`.  `whence` 0/1/2 are Go
`io.SeekStart` / `io.SeekCurrent` / `io.SeekEnd`.  Every conversion between
`int64` and `uint64` in the source is kept explicit; an unrecognized
`whence` leaves the offset alone; the call does no I/O and its Go error
result is always `nil`, so none is modelled. -/
def LogReader.Seek (lr : LogReader) (offset : Int) (whence : Nat) : LogReader × Int :=
  let lr2 :=
    if whence = 0 then { lr with offset := toUint64 offset }
    else if whence = 1 then { lr with offset := toUint64 (toInt64 lr.offset + offset) }
    else if whence = 2 then
      if 0 < lr.total then { lr with offset := toUint64 (toInt64 lr.total + offset) }
      else { lr with offset := 0 }
    else lr
  (lr2, toInt64 lr2.offset)

/-- The first line of a well-formed chunk response, before the newline:
`SUCCESS: <d1>-<d2>/<d3>`. -/
def chunkHeader (d1 d2 d3 : List Char) : List Char :=
  ("SUCCESS: ").toList ++ (d1 ++ '-' :: (d2 ++ '/' :: d3))

/-- A whole well-formed chunk response: header line, newline, payload. -/
def chunkResponse (d1 d2 d3 payload : List Char) : List Char :=
  chunkHeader d1 d2 d3 ++ '\n' :: payload

/-- A concrete served request carrying the spec's scenario chunk
`SUCCESS: 6-10/10` with payload `WXYZ`. -/
def reqChunk6 : NodeRequest :=
  ⟨"", true, 0, "", ("SUCCESS: 6-10/10\nWXYZ").toList⟩

/-- A concrete request the dispatcher never serves. -/
def reqUnserved : NodeRequest := ⟨"", false, 0, "", []⟩

/-- A concrete served request whose outcome is an error, below the ceiling. -/
def reqErrLow : NodeRequest := ⟨"", true, 3, "boom", []⟩

/-- A concrete served request whose outcome is an error, at the ceiling. -/
def reqErrHigh : NodeRequest := ⟨"", true, 16, "boom", []⟩

/-- A concrete stream positioned at offset 6 with the size still unknown. -/
def lrAt6 : LogReader := ⟨"erigon.log", 0, 6⟩

/-- A concrete stream at offset 0 with the size still unknown. -/
def lrFresh : LogReader := ⟨"erigon.log", 0, 0⟩

/-- The list response of the C9 counterexample: a good line, then a line
whose size field does not parse. -/
def resBadSize : String := "SUCCESS\ngood.log | 5\nbad.log | xyz"

/-- An empty `LogList` accumulator with a session name, as
`processLogList` builds it. -/
def llEmpty : LogList := ⟨false, "", "sess", []⟩

/-- An empty `LogPart` accumulator, as `processLogPart` builds it. -/
def lpEmpty : LogPart := ⟨false, "", []⟩

theorem splitFirstLine_append (xs rest : List Char) (h : '\n' ∉ xs) :
    splitFirstLine (xs ++ '\n' :: rest) = some (xs, rest) := by
  induction xs with
  | nil => simp [splitFirstLine]
  | cons c cs ih =>
    have hc : ¬ c = '\n' := fun hcc => h (hcc ▸ List.mem_cons_self c cs)
    have ih2 := ih (fun hm => h (List.mem_cons_of_mem c hm))
    simp [splitFirstLine, hc, ih2]

theorem isPrefixOf_self_append (p r : List Char) : p.isPrefixOf (p ++ r) = true := by
  induction p with
  | nil => simp [List.isPrefixOf]
  | cons c cs ih => simp [List.isPrefixOf, ih]

theorem dropPre_self_append (p r : List Char) : dropPre p (p ++ r) = some r := by
  simp [dropPre, isPrefixOf_self_append, List.drop_left]

theorem takeDigits_all (ds : List Char) (h : ∀ c ∈ ds, c.isDigit = true) :
    takeDigits ds = (ds, []) := by
  induction ds with
  | nil => rfl
  | cons c cs ih =>
    have h1 := h c (List.mem_cons_self c cs)
    have ih2 := ih (fun x hx => h x (List.mem_cons_of_mem c hx))
    simp [takeDigits, h1, ih2]

theorem takeDigits_append (ds : List Char) (c : Char) (r : List Char)
    (h : ∀ x ∈ ds, x.isDigit = true) (hc : c.isDigit = false) :
    takeDigits (ds ++ c :: r) = (ds, c :: r) := by
  induction ds with
  | nil => simp [takeDigits, hc]
  | cons d dsr ih =>
    have h1 := h d (List.mem_cons_self d dsr)
    have ih2 := ih (fun x hx => h x (List.mem_cons_of_mem d hx))
    simp [takeDigits, h1, ih2]

theorem chunkHeader_no_newline (d1 d2 d3 : List Char)
    (g1 : ∀ c ∈ d1, c.isDigit = true) (g2 : ∀ c ∈ d2, c.isDigit = true)
    (g3 : ∀ c ∈ d3, c.isDigit = true) : '\n' ∉ chunkHeader d1 d2 d3 := by
  intro hm
  rcases List.mem_append.1 hm with h | h
  · exact absurd h (by decide)
  · rcases List.mem_append.1 h with h2 | h2
    · exact absurd (g1 _ h2) (by decide)
    · rcases List.mem_cons.1 h2 with h3 | h3
      · exact absurd h3 (by decide)
      · rcases List.mem_append.1 h3 with h4 | h4
        · exact absurd (g2 _ h4) (by decide)
        · rcases List.mem_cons.1 h4 with h5 | h5
          · exact absurd h5 (by decide)
          · exact absurd (g3 _ h5) (by decide)

theorem logReadFirstLine_header (d1 d2 d3 : List Char)
    (h1 : d1 ≠ []) (h2 : d2 ≠ []) (h3 : d3 ≠ [])
    (g1 : ∀ c ∈ d1, c.isDigit = true) (g2 : ∀ c ∈ d2, c.isDigit = true)
    (g3 : ∀ c ∈ d3, c.isDigit = true) :
    logReadFirstLine (chunkHeader d1 d2 d3) = some (d1, d2, d3) := by
  unfold logReadFirstLine chunkHeader
  simp only [dropPre_self_append, takeDigits_append d1 '-' (d2 ++ '/' :: d3) g1 (by decide),
    takeDigits_append d2 '/' d3 g2 (by decide), takeDigits_all d3 g3]
  simp [h1, h2, h3]

theorem parseUint64_digits (ds : List Char) (h : ds ≠ [])
    (g : ∀ c ∈ ds, c.isDigit = true) (b : digitsToNat ds < W) :
    parseUint64 ds = some (digitsToNat ds) := by
  have hall : ds.all (fun c => c.isDigit) = true := List.all_eq_true.mpr g
  simp [parseUint64, h, b, hall]

/-- C1: a served request with an empty error field whose response is
`SUCCESS: <from>-<to>/<total>` (three unsigned decimal `uint64` fields)
followed by a newline and the payload, with `<from>` equal to the requested
offset, decodes to success=true (terminal whatever the attempt count), the
reported `<to>` and `<total>`, the bytes after the first newline as the
payload, and an empty error string. -/
theorem parseLogPart_valid_chunk (u : String) (retries offset : Nat)
    (d1 d2 d3 payload : List Char)
    (h1 : d1 ≠ []) (h2 : d2 ≠ []) (h3 : d3 ≠ [])
    (g1 : ∀ c ∈ d1, c.isDigit = true) (g2 : ∀ c ∈ d2, c.isDigit = true)
    (g3 : ∀ c ∈ d3, c.isDigit = true)
    (b1 : digitsToNat d1 < W) (b2 : digitsToNat d2 < W) (b3 : digitsToNat d3 < W)
    (hoff : digitsToNat d1 = offset) :
    parseLogPart ⟨u, true, retries, "", chunkResponse d1 d2 d3 payload⟩ offset =
      ⟨true, digitsToNat d2, digitsToNat d3, payload, ""⟩ := by
  unfold parseLogPart chunkResponse
  simp only [splitFirstLine_append _ _ (chunkHeader_no_newline d1 d2 d3 g1 g2 g3),
    logReadFirstLine_header d1 d2 d3 h1 h2 h3 g1 g2 g3,
    parseUint64_digits d1 h1 g1 b1, parseUint64_digits d2 h2 g2 b2,
    parseUint64_digits d3 h3 g3 b3, hoff]
  simp

/-- Witness for C1 at the spec's scenario chunk `SUCCESS: 6-10/10\nWXYZ`
requested at offset 6. -/
theorem parseLogPart_valid_chunk_witness :
    parseLogPart reqChunk6 6 = ⟨true, 10, 10, ("WXYZ").toList, ""⟩ := by
  have h := parseLogPart_valid_chunk "" 0 6 (['6']) (['1', '0']) (['1', '0'])
    (("WXYZ").toList) (by decide) (by decide) (by decide) (by decide) (by decide)
    (by decide) (by decide) (by decide) (by decide) (by decide)
  exact h

theorem parseLogPart_clear_eq (req : NodeRequest) (off : Nat) (hs : req.served = true) :
    (parseLogPart req off).errStr = "" ∧ (parseLogPart req off).clear = true ∨
      (parseLogPart req off).clear = decide (16 ≤ req.retries) := by
  by_cases he : req.err = ""
  · rcases hsp : splitFirstLine req.response with _ | ⟨fl, rest⟩
    · right; simp [parseLogPart, hs, he, hsp]
    · rcases hlr : logReadFirstLine fl with _ | ⟨d1, d2, d3⟩
      · right; simp [parseLogPart, hs, he, hsp, hlr]
      · rcases hp1 : parseUint64 d1 with _ | fr
        · right; simp [parseLogPart, hs, he, hsp, hlr, hp1]
        · by_cases hfr : fr = off
          · rcases hp2 : parseUint64 d2 with _ | t
            · right; simp [parseLogPart, hs, he, hsp, hlr, hp1, hp2, hfr]
            · rcases hp3 : parseUint64 d3 with _ | tot
              · right; simp [parseLogPart, hs, he, hsp, hlr, hp1, hp2, hp3, hfr]
              · left; simp [parseLogPart, hs, he, hsp, hlr, hp1, hp2, hp3, hfr]
          · right; simp [parseLogPart, hs, he, hsp, hlr, hp1, hfr]
  · right; simp [parseLogPart, hs, he]

/-- C3: for a served request, an error outcome (non-empty error field, or
any decode error) is reported as-is, and the terminal (`clear`) flag is true
exactly when the attempt count has reached the ceiling of 16. -/
theorem parseLogPart_error_gate (req : NodeRequest) (off : Nat) (hs : req.served = true) :
    (req.err ≠ "" → parseLogPart req off = ⟨decide (16 ≤ req.retries), 0, 0, [], req.err⟩) ∧
      ((parseLogPart req off).errStr ≠ "" →
        ((parseLogPart req off).clear = true ↔ 16 ≤ req.retries)) := by
  constructor
  · intro he; simp [parseLogPart, hs, he]
  · intro hne
    rcases parseLogPart_clear_eq req off hs with ⟨hemp, _⟩ | h
    · exact absurd hemp hne
    · rw [h]; simp

/-- Witness for C3: a served error below the ceiling is reported without the
terminal flag; at the ceiling it is reported with it. -/
theorem parseLogPart_error_gate_witness :
    parseLogPart reqErrLow 0 = ⟨false, 0, 0, [], "boom"⟩ ∧
      parseLogPart reqErrHigh 0 = ⟨true, 0, 0, [], "boom"⟩ := by
  constructor
  · exact (parseLogPart_error_gate reqErrLow 0 rfl).1 (by decide)
  · exact (parseLogPart_error_gate reqErrHigh 0 rfl).1 (by decide)

/-- C4: a chunk response whose reported `from` differs from the requested
offset always fails decoding with an error naming both offsets (the retry
ceiling alone decides terminality), and a `Read` that ends with any decode
error returns the stream unchanged — in particular the offset is not
mutated. -/
theorem offset_mismatch_and_no_mutation :
    (∀ (u : String) (retries off : Nat) (d1 d2 d3 payload : List Char),
      d1 ≠ [] → d2 ≠ [] → d3 ≠ [] →
      (∀ c ∈ d1, c.isDigit = true) → (∀ c ∈ d2, c.isDigit = true) →
      (∀ c ∈ d3, c.isDigit = true) → digitsToNat d1 < W → digitsToNat d1 ≠ off →
      parseLogPart ⟨u, true, retries, "", chunkResponse d1 d2 d3 payload⟩ off =
        ⟨decide (16 ≤ retries), 0, 0, [],
          "Unexpected from " ++ toString (digitsToNat d1) ++ ", wanted " ++ toString off⟩) ∧
    (∀ (lr : LogReader) (bufLen : Nat) (reqs : Nat → NodeRequest) (done : Nat → Bool)
      (fuel total : Nat) (part : List Char) (msg : String),
      msg ≠ "" → readLoop reqs done lr.offset fuel 0 = some (some (total, part, msg)) →
      lr.Read bufLen reqs done fuel = some (lr, 0, ReadOutcome.failed msg)) := by
  constructor
  · intro u retries off d1 d2 d3 payload h1 h2 h3 g1 g2 g3 b1 hne
    unfold parseLogPart chunkResponse
    simp only [splitFirstLine_append _ _ (chunkHeader_no_newline d1 d2 d3 g1 g2 g3),
      logReadFirstLine_header d1 d2 d3 h1 h2 h3 g1 g2 g3,
      parseUint64_digits d1 h1 g1 b1]
    simp [hne]
  · intro lr bufLen reqs done fuel total part msg hm hl
    simp [LogReader.Read, hl, hm]

/-- C2: when the polling loop ends with a successful decode reporting total
`T` and payload `P`, `Read` stores `T` as the stream's total, copies
`min (buffer length) (length of P)` bytes, advances the offset by the copied
count, returns that count, and signals end-of-stream exactly when the new
offset equals `T`. -/
theorem Read_success_updates (lr : LogReader) (bufLen : Nat) (reqs : Nat → NodeRequest)
    (done : Nat → Bool) (fuel T : Nat) (P : List Char)
    (h : readLoop reqs done lr.offset fuel 0 = some (some (T, P, "")))
    (hov : lr.offset + min bufLen P.length < W) :
    lr.Read bufLen reqs done fuel =
      some ({ lr with total := T, offset := lr.offset + min bufLen P.length },
        min bufLen P.length,
        ReadOutcome.ok (decide (lr.offset + min bufLen P.length = T))) := by
  have hmod : (lr.offset + min bufLen P.length) % W = lr.offset + min bufLen P.length :=
    Nat.mod_eq_of_lt hov
  by_cases heq : lr.offset + min bufLen P.length = T
  · rw [heq] at hmod
    simp [LogReader.Read, h, hmod, heq]
  · simp [LogReader.Read, h, hmod, heq]

/-- Witness for C2 at the spec's scenario: chunk `SUCCESS: 6-10/10\nWXYZ`
requested at offset 6 into a 10-byte buffer copies 4 bytes, sets the total
to 10, moves the offset to 10 and signals end-of-stream. -/
theorem Read_success_updates_witness :
    lrAt6.Read 10 (fun _ => reqChunk6) (fun _ => false) 1 =
      some (⟨"erigon.log", 10, 10⟩, 4, ReadOutcome.ok true) := by
  have h := Read_success_updates lrAt6 10 (fun _ => reqChunk6) (fun _ => false) 1 10
    (("WXYZ").toList) (by decide) (by decide)
  exact h

/-- C7: a `Read` whose cancellation signal is already set at entry returns
the cancellation outcome at once with zero bytes copied and the stream
unchanged, and more generally the cancellation flag is checked at the top of
every loop iteration, before the decode attempt on that iteration's
snapshot. -/
theorem Read_cancelled_immediate :
    (∀ (lr : LogReader) (bufLen : Nat) (reqs : Nat → NodeRequest) (done : Nat → Bool)
      (fuel : Nat), done 0 = true → 0 < fuel →
      lr.Read bufLen reqs done fuel = some (lr, 0, ReadOutcome.interrupted)) ∧
    (∀ (reqs : Nat → NodeRequest) (done : Nat → Bool) (off fuel i : Nat),
      done i = true → readLoop reqs done off (fuel + 1) i = some none) := by
  constructor
  · intro lr bufLen reqs done fuel h0 hf
    obtain ⟨f, rfl⟩ : ∃ f, fuel = f + 1 := ⟨fuel - 1, by omega⟩
    simp [LogReader.Read, readLoop, h0]
  · intro reqs done off fuel i hi
    simp [readLoop, hi]

theorem readLoop_unserved (off : Nat) :
    ∀ (fuel i : Nat), readLoop (fun _ => reqUnserved) (fun _ => false) off fuel i = none := by
  intro fuel
  induction fuel with
  | zero => intro i; rfl
  | succ n ih =>
    intro i
    have hp : parseLogPart reqUnserved off = ⟨false, 0, 0, [], ""⟩ := rfl
    simp [readLoop, hp, ih]

/-- C5 counterexample: with a dispatcher that never serves the request and a
cancellation signal that never fires, `Read` never returns, for any amount
of fuel — the claim that every `Read` call terminates after a bounded number
of retries is false for this dispatcher behaviour. -/
theorem Read_unserved_never_returns :
    ¬ ∃ (fuel : Nat) (r : LogReader × Nat × ReadOutcome),
        lrFresh.Read 10 (fun _ => reqUnserved) (fun _ => false) fuel = some r := by
  rintro ⟨fuel, r, h⟩
  simp [LogReader.Read, readLoop_unserved] at h

theorem readLoop_reaches (reqs : Nat → NodeRequest) (done : Nat → Bool) (off : Nat) :
    ∀ (fuel i : Nat),
      (∃ k, k < fuel ∧
        (done (i + k) = true ∨ (parseLogPart (reqs (i + k)) off).clear = true)) →
      (readLoop reqs done off fuel i).isSome = true := by
  intro fuel
  induction fuel with
  | zero =>
    rintro i ⟨k, hk, _⟩
    omega
  | succ n ih =>
    rintro i ⟨k, hk, hstop⟩
    by_cases hd : done i = true
    · simp [readLoop, hd]
    · have hd2 : done i = false := by simpa using hd
      by_cases hc : (parseLogPart (reqs i) off).clear = true
      · simp [readLoop, hd2, hc]
      · have hc2 : (parseLogPart (reqs i) off).clear = false := by simpa using hc
        rcases k with _ | k2
        · rw [Nat.add_zero] at hstop
          rcases hstop with hx | hx
          · exact absurd hx hd
          · exact absurd hx hc
        · have hnext : ∃ k, k < n ∧
              (done (i + 1 + k) = true ∨ (parseLogPart (reqs (i + 1 + k)) off).clear = true) := by
            refine ⟨k2, by omega, ?_⟩
            rw [show i + 1 + k2 = i + (k2 + 1) by omega]
            exact hstop
          have hr := ih (i + 1) hnext
          simpa [readLoop, hd2, hc2] using hr

/-- C5 amended: `Read` returns after finitely many poll iterations exactly
when some iteration observes cancellation or a terminal (`clear`) decode
outcome — in particular whenever the dispatcher eventually serves a valid
chunk, or serves an error once the attempt count has reached the ceiling of
16.  (For a request that stays unserved, or stays served-with-error below
the ceiling, with no cancellation, `Read` polls forever.) -/
theorem Read_terminates_of_clear (lr : LogReader) (bufLen : Nat)
    (reqs : Nat → NodeRequest) (done : Nat → Bool)
    (h : ∃ i, done i = true ∨ (parseLogPart (reqs i) lr.offset).clear = true) :
    ∃ fuel, (lr.Read bufLen reqs done fuel).isSome = true := by
  obtain ⟨i, hi⟩ := h
  refine ⟨i + 1, ?_⟩
  have hl := readLoop_reaches reqs done lr.offset (i + 1) 0
    ⟨i, Nat.lt_succ_self i, by simpa using hi⟩
  unfold LogReader.Read
  rcases hrl : readLoop reqs done lr.offset (i + 1) 0 with _ | ⟨_ | ⟨total, part, errStr⟩⟩
  · rw [hrl] at hl
    simp at hl
  · simp
  · dsimp only
    by_cases he : errStr = ""
    · subst he
      rw [if_neg (fun hf => hf rfl)]
      split <;> simp
    · rw [if_pos he]
      simp

/-- Witness for C5's amended theorem: a dispatcher that immediately serves
the scenario chunk makes `Read` return with some finite fuel. -/
theorem Read_terminates_of_clear_witness :
    ∃ fuel, (lrAt6.Read 4 (fun _ => reqChunk6) (fun _ => false) fuel).isSome = true :=
  Read_terminates_of_clear lrAt6 4 (fun _ => reqChunk6) (fun _ => false)
    ⟨0, Or.inr (by decide)⟩

theorem W_eq : W = 18446744073709551616 := by norm_num [W]

theorem toUint64_of_bounds (i : Int) (h0 : 0 ≤ i) (h1 : i < 2 ^ 63) :
    toUint64 i = i.toNat := by
  unfold toUint64
  have hW : (W : Int) = 18446744073709551616 := by norm_num [W]
  rw [hW]
  omega

theorem toInt64_small (n : Nat) (h : n < 2 ^ 63) : toInt64 n = (n : Int) := by
  unfold toInt64
  have hW : W = 18446744073709551616 := W_eq
  rw [hW]
  have h2 : n % 18446744073709551616 = n := Nat.mod_eq_of_lt (by omega)
  rw [h2, if_pos (by omega)]

theorem toUint64_toInt64_add (u : Nat) (s : Int) (hu : u < W)
    (h0 : 0 ≤ (u : Int) + s) (h1 : (u : Int) + s < 2 ^ 63) :
    toUint64 (toInt64 u + s) = ((u : Int) + s).toNat := by
  unfold toUint64 toInt64
  rw [W_eq] at hu ⊢
  have h2 : u % 18446744073709551616 = u := Nat.mod_eq_of_lt hu
  rw [h2]
  split <;> omega

/-- C6: `Seek` moves the offset to the given position for each of the three
reference points — absolute, relative to the current offset, and relative to
the end when the total size is already known (and to offset 0 when seeking
from the end with the size still unknown) — returns the resulting absolute
offset, and cannot fail (its Go error result is always nil; it does no
I/O). -/
theorem Seek_spec (lr : LogReader) (off : Int) (hoff : lr.offset < W) (htot : lr.total < W) :
    (0 ≤ off → off < 2 ^ 63 →
      lr.Seek off 0 = ({ lr with offset := off.toNat }, off)) ∧
    (0 ≤ (lr.offset : Int) + off → (lr.offset : Int) + off < 2 ^ 63 →
      lr.Seek off 1 =
        ({ lr with offset := ((lr.offset : Int) + off).toNat }, (lr.offset : Int) + off)) ∧
    (0 < lr.total → 0 ≤ (lr.total : Int) + off → (lr.total : Int) + off < 2 ^ 63 →
      lr.Seek off 2 =
        ({ lr with offset := ((lr.total : Int) + off).toNat }, (lr.total : Int) + off)) ∧
    (lr.total = 0 → lr.Seek off 2 = ({ lr with offset := 0 }, 0)) := by
  refine ⟨fun h0 h1 => ?_, fun h0 h1 => ?_, fun ht h0 h1 => ?_, fun ht => ?_⟩
  · have hx : toUint64 off = off.toNat := toUint64_of_bounds off h0 h1
    have hy : toInt64 off.toNat = ((off.toNat : Nat) : Int) :=
      toInt64_small off.toNat (by omega)
    simp [LogReader.Seek, hx, hy, Int.toNat_of_nonneg h0]
  · have hx : toUint64 (toInt64 lr.offset + off) = ((lr.offset : Int) + off).toNat :=
      toUint64_toInt64_add lr.offset off hoff h0 h1
    have hy : toInt64 ((lr.offset : Int) + off).toNat = (((lr.offset : Int) + off).toNat : Int) :=
      toInt64_small _ (by omega)
    simp [LogReader.Seek, hx, hy, Int.toNat_of_nonneg h0]
  · have hx : toUint64 (toInt64 lr.total + off) = ((lr.total : Int) + off).toNat :=
      toUint64_toInt64_add lr.total off htot h0 h1
    have hy : toInt64 ((lr.total : Int) + off).toNat = (((lr.total : Int) + off).toNat : Int) :=
      toInt64_small _ (by omega)
    simp [LogReader.Seek, ht, hx, hy, Int.toNat_of_nonneg h0]
  · have hz : toInt64 0 = 0 := by
      unfold toInt64
      rw [W_eq]
      norm_num
    simp [LogReader.Seek, ht, hz]

/-- Witness for C6's end-relative clauses: after the total is known to be
5000, seeking end with offset -100 lands at and returns 4900; before the
total is known, seeking end returns 0. -/
theorem Seek_spec_witness :
    LogReader.Seek ⟨"erigon.log", 5000, 123⟩ (-100) 2 =
        (⟨"erigon.log", 5000, 4900⟩, 4900) ∧
      LogReader.Seek ⟨"erigon.log", 0, 7⟩ (-100) 2 = (⟨"erigon.log", 0, 0⟩, 0) := by
  constructor
  · have h := (Seek_spec ⟨"erigon.log", 5000, 123⟩ (-100)
      (show (123 : Nat) < W by rw [W_eq]; omega)
      (show (5000 : Nat) < W by rw [W_eq]; omega)).2.2.1
      (by norm_num) (by norm_num) (by norm_num)
    simpa using h
  · have h := (Seek_spec ⟨"erigon.log", 0, 7⟩ (-100)
      (show (7 : Nat) < W by rw [W_eq]; omega)
      (show (0 : Nat) < W by rw [W_eq]; omega)).2.2.2 rfl
    simpa using h

/-- C8 counterexample: the snippet decoder called with `wasSuccessful = true`
on a body whose first line does not carry the success marker does NOT treat
that as a decode error — it reports success with an empty error and keeps
every line. -/
theorem snippet_missing_marker_accepted :
    LogPart.processResponse lpEmpty ("hello") true = ⟨true, "", ["hello"]⟩ := by
  decide

/-- C8 amended: for all three decoders, `wasSuccessful = false` (or a served
request with a non-empty error field) makes the raw text the error verbatim
with nothing parsed; the success-marker requirement on the first line holds
for the list decoder (missing marker is a decode error) and for the
byte-chunk decoder (a first line failing the `SUCCESS: from-to/total`
pattern is a decode error), but not for the snippet decoder, which merely
strips the first line when it carries the marker and otherwise accepts the
response, keeping all lines. -/
theorem decoders_error_verbatim_marker :
    (∀ (lp : LogPart) (result : String),
      lp.processResponse result false = { lp with Success := false, Error := result }) ∧
    (∀ (ll : LogList) (result : String),
      ll.processResponse result false = { ll with Error := result }) ∧
    (∀ (req : NodeRequest) (off : Nat), req.served = true → req.err ≠ "" →
      parseLogPart req off = ⟨decide (16 ≤ req.retries), 0, 0, [], req.err⟩) ∧
    (∀ (ll : LogList) (result : String) (l0 l1 : List Char) (rest : List (List Char)),
      splitLines result.toList = l0 :: l1 :: rest →
      successLine.toList.isPrefixOf l0 = false →
      ll.processResponse result true =
        { ll with Error := "incorrect response (first line needs to be SUCCESS): " ++
            goShowLines (l0 :: l1 :: rest) }) ∧
    (∀ (req : NodeRequest) (off : Nat) (firstLine rest : List Char),
      req.served = true → req.err = "" →
      splitFirstLine req.response = some (firstLine, rest) →
      logReadFirstLine firstLine = none →
      parseLogPart req off = ⟨decide (16 ≤ req.retries), 0, 0, [],
        "first line needs to have format SUCCESS: from-to/total, was [" ++
          String.mk firstLine ++ "n"⟩) ∧
    (∀ (lp : LogPart) (result : String) (l0 : List Char) (rest : List (List Char)),
      splitLines result.toList = l0 :: rest →
      successLine.toList.isPrefixOf l0 = false →
      lp.processResponse result true =
        { lp with Success := true, Lines := (l0 :: rest).map String.mk }) := by
  refine ⟨?_, ?_, ?_, ?_, ?_, ?_⟩
  · intro lp result
    rfl
  · intro ll result
    rfl
  · intro req off hs he
    simp [parseLogPart, hs, he]
  · intro ll result l0 l1 rest hsp hpre
    have hsp2 : splitLines result.data = l0 :: l1 :: rest := hsp
    have hpre2 : successLine.data.isPrefixOf l0 = false := hpre
    simp [LogList.processResponse, hsp2, hpre2]
  · intro req off firstLine rest hs he hsp hlr
    simp [parseLogPart, hs, he, hsp, hlr]
  · intro lp result l0 rest hsp hpre
    have hsp2 : splitLines result.data = l0 :: rest := hsp
    have hpre2 : ¬ successLine.data <+: l0 := by
      intro hp
      have ht : successLine.data.isPrefixOf l0 = true := List.isPrefixOf_iff_prefix.mpr hp
      have hf : successLine.data.isPrefixOf l0 = false := hpre
      rw [ht] at hf
      exact Bool.noConfusion hf
    simp [LogPart.processResponse, hsp2, hpre2]

/-- C9 counterexample: on `SUCCESS\ngood.log | 5\nbad.log | xyz` the size
failure's error message is `incorrect size: xyz`, which does not contain the
offending line `bad.log | xyz` verbatim, and the entry decoded from the
earlier good line stays in the result's list, so entries ARE produced for a
rejected response. -/
theorem loglist_size_error_message_cex :
    (LogList.processResponse llEmpty resBadSize true).Error = "incorrect size: xyz" ∧
      ¬ (("bad.log | xyz").toList <:+:
          (LogList.processResponse llEmpty resBadSize true).Error.toList) ∧
      (LogList.processResponse llEmpty resBadSize true).List ≠ [] := by
  decide

/-- C9 amended: every non-blank line after the success line must split into
exactly two fields on `" | "` with a decimal `uint64` second field; the
first bad line stops decoding with success unset and a hard error, but
entries decoded from earlier lines remain in the list field; the
wrong-field-count error message contains the offending line verbatim, while
the unparsable-size error message contains only the offending size field,
not the whole line. -/
theorem loglist_bad_line_behavior :
    (∀ (acc : List LogListItem) (l : List Char) (rest : List (List Char)),
      l.isEmpty = false → (splitBarSep l).length ≠ 2 →
      processLines acc (l :: rest) =
        (acc, some ("incorrect response line (need to have 2 terms divided by |): " ++
          String.mk l))) ∧
    (∀ l : List Char,
      l <:+: ("incorrect response line (need to have 2 terms divided by |): " ++
        String.mk l).toList) ∧
    (∀ (acc : List LogListItem) (l : List Char) (rest : List (List Char)) (a b : List Char),
      l.isEmpty = false → splitBarSep l = [a, b] → parseUint64 b = none →
      processLines acc (l :: rest) = (acc, some ("incorrect size: " ++ String.mk b))) ∧
    (∀ (ll : LogList) (result : String) (l0 l1 : List Char) (rest : List (List Char))
      (items : List LogListItem) (e : String),
      splitLines result.toList = l0 :: l1 :: rest →
      successLine.toList.isPrefixOf l0 = true →
      processLines [] (l1 :: rest) = (items, some e) →
      ll.processResponse result true =
        { ll with List := ll.List ++ items, Error := e }) := by
  refine ⟨?_, ?_, ?_, ?_⟩
  · intro acc l rest hemp hlen
    rcases hs2 : splitBarSep l with _ | ⟨a, _ | ⟨b, _ | ⟨c, tl⟩⟩⟩
    · simp [processLines, hemp, hs2]
    · simp [processLines, hemp, hs2]
    · rw [hs2] at hlen
      simp at hlen
    · simp [processLines, hemp, hs2]
  · intro l
    refine ⟨("incorrect response line (need to have 2 terms divided by |): ").toList, [], ?_⟩
    simp [String.toList, String.data_append]
  · intro acc l rest a b hemp hs2 hpu
    simp [processLines, hemp, hs2, hpu]
  · intro ll result l0 l1 rest items e hsp hpre hpl
    have hsp2 : splitLines result.data = l0 :: l1 :: rest := hsp
    have hpre2 : successLine.data.isPrefixOf l0 = true := hpre
    simp [LogList.processResponse, hsp2, hpre2, hpl]

/-- C10: a successful list response whose body splits into fewer than two
lines on newlines — necessarily exactly one, since splitting never yields
zero — is rejected with the `incorrect response` length error and produces
no entries, even when that single line carries the success marker. -/
theorem loglist_short_response (ll : LogList) (result : String) (x : List Char)
    (h : splitLines result.toList = [x]) :
    ll.processResponse result true =
      { ll with Error := "incorrect response (length of lines should be at least 2): " ++
          goShowLines [x] } := by
  have h2 : splitLines result.data = [x] := h
  simp [LogList.processResponse, h2]

/-- Witness for C10: the response consisting of exactly the success marker
with no trailing newline is rejected with the length error, unchanged
success flag and no entries. -/
theorem loglist_short_response_witness :
    LogList.processResponse llEmpty ("SUCCESS") true =
      ⟨false, "incorrect response (length of lines should be at least 2): [SUCCESS]",
        "sess", []⟩ := by
  have h := loglist_short_response llEmpty ("SUCCESS") (("SUCCESS").toList) rfl
  exact h
